import Mathlib

/-!
Verification development for the `avoc` audio streaming core.

Shallow embedding of the two delivery surfaces of the repository:

* `AudioFilter` (src/avoc/main.py, class `AudioFilter`) — the stream
  adapter that reassembles an arbitrarily chunked sample stream into
  fixed-size blocks, runs a per-block transform, and re-serialises the
  outputs.  Samples are modelled generically (`List α`); the byte width
  of a sample is 4 (`"<f4"` little-endian float32 in the source), so a
  byte count is always `4 *` a sample count.

* `change_voice` (src/avoc/main.py, `VoiceChangerManager.change_voice`)
  — the transform wrapper: pass-through branch, delegation to the
  voice-conversion pipeline, and per-exception fallbacks.  Sample values
  are idealised as real numbers.

* `LoopCtx` / `on_capture` / `on_playback` / `AudioPipeWire`
  (src/avoc/audiopipewire.py) — the native-loop bridge: the single-slot
  handoff buffer written by the capture callback and drained by the
  playback callback, plus the teardown path.

`np.empty(1)` in the source produces a length-1 *uninitialised* array;
it is modelled as a one-element list holding an arbitrary value supplied
as a parameter, so theorems can quantify over the uninitialised content.
-/

namespace Avoc

/-- State of `AudioFilter` (main.py:79-89): the residual sample buffer
`audioInBuff` and the configured block size `blockSamplesCount`. -/
structure AudioFilter (α : Type) where
  audioInBuff : List α
  blockSamplesCount : Nat
  deriving Repr, DecidableEq

/-- `AudioFilter.__init__` (main.py:88): `self.audioInBuff = np.empty(1)`
creates a one-element uninitialised buffer; `empty1` is its (arbitrary)
content. -/
def AudioFilter.init (empty1 : α) (blockSamplesCount : Nat) : AudioFilter α :=
  { audioInBuff := [empty1], blockSamplesCount := blockSamplesCount }

/-- The `while` loop of `AudioFilter.readData` (main.py:98-103): while the
buffer holds at least `bsc` samples, pop the oldest `bsc` samples, run the
transform `cv` on them and append its output to the accumulator `acc`.
Returns (accumulated output, final buffer).  The `0 < bsc` guard only
rules out the degenerate `bsc = 0`, on which the source loop would not
terminate; every construction site passes a positive block size. -/
def extractBlocks (cv : List α → List α) (bsc : Nat) (acc buff : List α) :
    List α × List α :=
  if _h : 0 < bsc ∧ bsc ≤ buff.length then
    extractBlocks cv bsc (acc ++ cv (buff.take bsc)) (buff.drop bsc)
  else
    (acc, buff)
termination_by buff.length
decreasing_by simp only [List.length_drop]; omega

/-- `AudioFilter.readData` (main.py:91-105).  `data` is the chunk returned
by `self.inputDevice.read(maxlen)` (so `4 * data.length ≤ maxlen` at the
call site); `empty1` is the uninitialised content of `result =
np.empty(1)`; `cv` is the `out_wav` component of `self.change_voice`
(the other three components are discarded by the unpacking
`out_wav, _, _, _ = ...`).  Returns the accumulated output samples
(serialised to bytes by `result.astype("<f4").tobytes()` in the source)
and the updated filter state. -/
def AudioFilter.readData (empty1 : α) (cv : List α → List α)
    (f : AudioFilter α) (data : List α) : List α × AudioFilter α :=
  let buff := f.audioInBuff ++ data
  let r := extractBlocks cv f.blockSamplesCount [empty1] buff
  (r.1, { f with audioInBuff := r.2 })

/-- `AudioFilter.bytesAvailable` (main.py:114-117).  The source adds
`len(self.audioInBuff)` — a *sample* count — to
`self.inputDevice.bytesAvailable()` — a *byte* count — and rounds the sum
down to a multiple of `blockSamplesCount * 4`. -/
def AudioFilter.bytesAvailable (f : AudioFilter α) (deviceBytesAvailable : Nat) :
    Nat :=
  let srcBytesCount := f.audioInBuff.length + deviceBytesAvailable
  srcBytesCount - srcBytesCount % (f.blockSamplesCount * 4)

/-- The consecutive `bsc`-sample chunks of a list in FIFO order, the
remainder (shorter than `bsc`) dropped.  Reference decomposition used to
state what the extraction loop computes. -/
def fifoBlocks (bsc : Nat) (l : List α) : List (List α) :=
  if _h : 0 < bsc ∧ bsc ≤ l.length then
    l.take bsc :: fifoBlocks bsc (l.drop bsc)
  else
    []
termination_by l.length
decreasing_by simp only [List.length_drop]; omega

example :
    AudioFilter.readData (0 : Int) (fun b => b) (AudioFilter.init 7 4)
      [1, 2, 3, 4, 5, 6, 7, 8, 9]
      = ([0, 7, 1, 2, 3, 4, 5, 6, 7], ⟨[8, 9], 4⟩) := by
  simp [AudioFilter.readData, AudioFilter.init, extractBlocks]

example : fifoBlocks 2 [1, 2, 3, 4, 5] = [[1, 2], [3, 4]] := by
  simp [fifoBlocks]

example (g₁ g₂ : Int) :
    AudioFilter.readData g₂ (fun b => b) (AudioFilter.init g₁ 4)
      [1, 2, 3, 4, 5, 6, 7, 8, 9]
      = ([g₂, g₁, 1, 2, 3, 4, 5, 6, 7], ⟨[8, 9], 4⟩) := by
  simp [AudioFilter.readData, AudioFilter.init, extractBlocks]

/-- The extraction loop leaves exactly `buff.length % bsc` samples in the
buffer: each pass removes exactly `bsc` samples and the loop stops when
fewer than `bsc` remain. -/
theorem extractBlocks_snd_length (cv : List α → List α) (bsc : Nat)
    (hb : 0 < bsc) :
    ∀ (n : Nat) (buff : List α), buff.length ≤ n → ∀ acc : List α,
      ((extractBlocks cv bsc acc buff).2).length = buff.length % bsc := by
  intro n
  induction n with
  | zero =>
    intro buff hle acc
    rw [extractBlocks]
    have hlen : buff.length = 0 := Nat.le_zero.mp hle
    rw [dif_neg (by omega)]
    simp [hlen]
  | succ n ih =>
    intro buff hle acc
    rw [extractBlocks]
    by_cases h : 0 < bsc ∧ bsc ≤ buff.length
    · rw [dif_pos h]
      have hdrop : (buff.drop bsc).length = buff.length - bsc := by
        simp
      have : (buff.drop bsc).length ≤ n := by omega
      rw [ih (buff.drop bsc) this]
      rw [hdrop, ← Nat.mod_eq_sub_mod h.2]
    · rw [dif_neg h]
      have hlt : buff.length < bsc := by omega
      exact (Nat.mod_eq_of_lt hlt).symm

/-- The extraction loop appends to the accumulator exactly the transform
outputs of the consecutive full `bsc`-sample blocks of the buffer, in
FIFO order. -/
theorem extractBlocks_fst (cv : List α → List α) (bsc : Nat) :
    ∀ (n : Nat) (buff : List α), buff.length ≤ n → ∀ acc : List α,
      (extractBlocks cv bsc acc buff).1
        = acc ++ ((fifoBlocks bsc buff).map cv).flatten := by
  intro n
  induction n with
  | zero =>
    intro buff hle acc
    rw [extractBlocks, fifoBlocks]
    have hlen : buff.length = 0 := Nat.le_zero.mp hle
    by_cases h : 0 < bsc ∧ bsc ≤ buff.length
    · omega
    · rw [dif_neg h, dif_neg h]; simp
  | succ n ih =>
    intro buff hle acc
    rw [extractBlocks, fifoBlocks]
    by_cases h : 0 < bsc ∧ bsc ≤ buff.length
    · rw [dif_pos h, dif_pos h]
      have : (buff.drop bsc).length ≤ n := by
        simp only [List.length_drop]; omega
      rw [ih (buff.drop bsc) this]
      simp
    · rw [dif_neg h, dif_neg h]; simp

/-- The three exception classes caught by `VoiceChangerManager.change_voice`
(main.py:241-264): `VoiceChangerIsNotSelectedException`,
`PipelineNotInitializedException`, and the generic `Exception` handler. -/
inductive VCException where
  | voiceChangerIsNotSelected
  | pipelineNotInitialized
  | generic
  deriving Repr, DecidableEq

/-- The first element of the failure tuple built in each `except` branch of
`change_voice`: the exception class name. -/
def VCException.descriptor : VCException → String
  | .voiceChangerIsNotSelected => "VoiceChangerIsNotSelectedException"
  | .pipelineNotInitialized => "PipelineNotInitializedException"
  | .generic => "Exception"

/-- `np.sqrt(np.square(receivedData).mean())` (main.py:234), float32
arithmetic idealised over the reals: the root of the mean of the squares. -/
noncomputable def rms (xs : List ℝ) : ℝ :=
  Real.sqrt ((xs.map (fun x => x ^ 2)).sum / xs.length)

/-- `VoiceChangerManager.change_voice` (main.py:230-264).
`passThrough` is `self.settings.passThrough`; `onRequest` models
`self.vc.on_request` (under `self.device_manager.lock`), which either
returns `(audio, vol, perf)` or raises one of the three caught exception
classes; `formatExc` models `traceback.format_exc()` for the raised
exception.  On the pass-through branch the input is returned unchanged
with its RMS as volume; on success the pipeline triple is returned with
no failure; on an exception the result is `np.zeros(1)` — a single zero
sample — volume `0`, timings `[0, 0, 0]`, and the failure descriptor. -/
noncomputable def change_voice (passThrough : Bool)
    (onRequest : List ℝ → Except VCException (List ℝ × ℝ × List Int))
    (formatExc : VCException → String) (receivedData : List ℝ) :
    List ℝ × ℝ × List Int × Option (String × String) :=
  if passThrough then
    (receivedData, rms receivedData, [0, 0, 0], none)
  else
    match onRequest receivedData with
    | .ok (audio, vol, perf) => (audio, vol, perf, none)
    | .error e =>
        (List.replicate 1 0, 0, [0, 0, 0], some (e.descriptor, formatExc e))

/-- `LoopCtx` (audiopipewire.py:11-17): the single-slot handoff shared by
the two native callbacks — the slot's backing buffer, its capacity
`buffer_size`, the recorded sample count `n_samples` of the current
contents, and the `have_data` flag. -/
structure LoopCtx where
  buffer : List ℝ
  buffer_size : Nat
  n_samples : Nat
  have_data : Bool

/-- Slot construction in `run` (audiopipewire.py:28-31): a zero-initialised
ctypes array of `blockSamplesCount * 2` floats, `n_samples = 0`,
`have_data = 0`. -/
def LoopCtx.init (blockSamplesCount : Nat) : LoopCtx :=
  { buffer := List.replicate (blockSamplesCount * 2) 0
    buffer_size := blockSamplesCount * 2
    n_samples := 0
    have_data := false }

/-- `ctypes.memmove`-style read of `count` floats starting at the base of
`src`.  Indices beyond `src.length` read memory past the end of the source
array; `oob i` is the (arbitrary) content of the `i`-th float past the
end. -/
def memmoveRead (src : List ℝ) (oob : Nat → ℝ) (count : Nat) : List ℝ :=
  (List.range count).map fun i =>
    if h : i < src.length then src.get ⟨i, h⟩ else oob (i - src.length)

/-- `on_capture` (audiopipewire.py:45-55).  Asserts the delivered count
equals the configured block size (`none` models the fatal assertion
failure), runs the transform keeping only `out_wav`, then
`npmemmove(lc.buffer_ptr, out_wav, n_samples * fsize)` copies
`n_samples` floats from `out_wav` into the front of the slot — reading
past the end of `out_wav` (values `oob`) whenever the transform output is
shorter than `n_samples` — records `lc.n_samples = n_samples` and sets
`have_data`. -/
def on_capture (blockSamplesCount : Nat)
    (changeVoice : List ℝ → List ℝ × ℝ × List Int × Option (String × String))
    (oob : Nat → ℝ) (lc : LoopCtx) (samples : List ℝ) (n_samples : Nat) :
    Option LoopCtx :=
  if n_samples = blockSamplesCount then
    let out_wav := (changeVoice samples).1
    some { lc with
      buffer := memmoveRead out_wav oob n_samples ++ lc.buffer.drop n_samples
      n_samples := n_samples
      have_data := true }
  else
    none

/-- `on_playback` (audiopipewire.py:57-67).  `samples` is the current
contents of the output buffer handed over by the native loop (length
`n_samples` at the call sites).  With `have_data` set, the first
`min n_samples lc.n_samples` floats are copied from the slot and
`have_data` is cleared — the rest of the output buffer is left as it
was.  Otherwise the first `n_samples` floats are zero-filled.  Returns
the updated context and the output buffer contents after the call. -/
def on_playback (lc : LoopCtx) (samples : List ℝ) (n_samples : Nat) :
    LoopCtx × List ℝ :=
  if lc.have_data then
    let n := min n_samples lc.n_samples
    ({ lc with have_data := false }, lc.buffer.take n ++ samples.drop n)
  else
    (lc, List.replicate n_samples 0 ++ samples.drop n_samples)

/-- Observable teardown actions of `AudioPipeWire.exit`
(audiopipewire.py:104-108), in program order: `pfts.main_loop_quit`
(signal the native loop to stop), `self.thread.join()` (block until the
background context running `run` has fully exited — only then is the
slot's backing memory, owned by `run`'s frame, gone), and
`self.loop = None` (release the loop handle). -/
inductive BridgeEvent where
  | quitSignal
  | joinThread
  | releaseLoop
  deriving Repr, DecidableEq

/-- `AudioPipeWire` control-thread state: whether `self.loop` still holds
the native loop handle (`True` from construction until `exit`
completes). -/
structure AudioPipeWire where
  loopHeld : Bool
  deriving Repr, DecidableEq

/-- `AudioPipeWire.exit` (audiopipewire.py:104-108): if `self.loop is not
None`, quit the loop, join the thread, drop the handle — in that order;
otherwise do nothing.  Returns the new state and the emitted action
trace. -/
def AudioPipeWire.exit (s : AudioPipeWire) : AudioPipeWire × List BridgeEvent :=
  if s.loopHeld then
    ({ loopHeld := false },
      [BridgeEvent.quitSignal, BridgeEvent.joinThread, BridgeEvent.releaseLoop])
  else
    (s, [])

/-- C1: the claim predicts that, with `blockSize = 4`, an identity
transform and 9 input samples, the first `read` returns exactly 8 samples
(the two FIFO blocks) and leaves 1 residual sample.  The code instead
starts both the residual buffer and the per-read accumulator as
`np.empty(1)` — a one-element *uninitialised* array — so, for every
uninitialised content `g₁` (buffer) and `g₂` (accumulator), the first
read returns 9 samples (`g₂`, then the transform of the polluted first
block `[g₁, 1, 2, 3]`, then the transform of `[4, 5, 6, 7]`) and leaves
2 residual samples (`[8, 9]`): the read output is not the concatenation
of the per-block transform outputs of consecutive 4-sample input chunks,
and 9 ≠ 8, 2 ≠ 1. -/
theorem readData_nine_samples_eval (g₁ g₂ : Int) :
    AudioFilter.readData g₂ (fun b => b) (AudioFilter.init g₁ 4)
        [1, 2, 3, 4, 5, 6, 7, 8, 9]
      = ([g₂, g₁, 1, 2, 3, 4, 5, 6, 7], ⟨[8, 9], 4⟩)
    ∧ (AudioFilter.readData g₂ (fun b => b) (AudioFilter.init g₁ 4)
        [1, 2, 3, 4, 5, 6, 7, 8, 9]).1.length = 9
    ∧ ((AudioFilter.readData g₂ (fun b => b) (AudioFilter.init g₁ 4)
        [1, 2, 3, 4, 5, 6, 7, 8, 9]).2).audioInBuff.length = 2 := by
  refine ⟨?_, ?_, ?_⟩ <;>
    simp [AudioFilter.readData, AudioFilter.init, extractBlocks]

/-- C7: after every `readData` call (for a positive block size) the
residual buffer holds exactly `(previous residual ++ new data).length %
blockSamplesCount` samples — each extracted block removes exactly
`blockSamplesCount` samples and nothing else is discarded — and in
particular strictly fewer than `blockSamplesCount` samples. -/
theorem readData_residual_length_lt_block {α : Type} (empty1 : α)
    (cv : List α → List α) (f : AudioFilter α) (data : List α)
    (hb : 0 < f.blockSamplesCount) :
    ((AudioFilter.readData empty1 cv f data).2).audioInBuff.length
        = (f.audioInBuff ++ data).length % f.blockSamplesCount
    ∧ ((AudioFilter.readData empty1 cv f data).2).audioInBuff.length
        < f.blockSamplesCount := by
  have h1 := extractBlocks_snd_length cv f.blockSamplesCount hb
    (f.audioInBuff ++ data).length (f.audioInBuff ++ data) le_rfl [empty1]
  have h2 : ((AudioFilter.readData empty1 cv f data).2).audioInBuff.length
      = (f.audioInBuff ++ data).length % f.blockSamplesCount := by
    simpa [AudioFilter.readData] using h1
  exact ⟨h2, h2 ▸ Nat.mod_lt _ hb⟩

/-- Witness for `readData_residual_length_lt_block` at a concrete input:
block size 4, residual `[1, 2, 3]`, incoming data `[4, 5, 6]`. -/
theorem readData_residual_length_lt_block_w :
    0 < (⟨[1, 2, 3], 4⟩ : AudioFilter Int).blockSamplesCount
    ∧ (((AudioFilter.readData 0 (fun b => b) (⟨[1, 2, 3], 4⟩ : AudioFilter Int)
          [4, 5, 6]).2).audioInBuff.length
        = (([1, 2, 3] : List Int) ++ [4, 5, 6]).length % 4
      ∧ ((AudioFilter.readData 0 (fun b => b) (⟨[1, 2, 3], 4⟩ : AudioFilter Int)
          [4, 5, 6]).2).audioInBuff.length < 4) :=
  ⟨by decide,
    readData_residual_length_lt_block 0 (fun b => b) ⟨[1, 2, 3], 4⟩ [4, 5, 6]
      (by decide)⟩

/-- C5, counterexample: the claim says block extraction also stops as soon
as the accumulated output reaches or exceeds `maxLength`'s byte budget,
which bounds the returned output by strictly less than
`maxLength + one block's bytes`.  Take block size 2, a residual buffer of
4 samples, and `maxLength = 0` (so `inputDevice.read(0)` returns no
data): the code's loop checks only the residual length, extracts both
blocks anyway, and returns 5 samples = 20 bytes, not < 0 + 4·2 bytes. -/
theorem readData_ignores_maxlen_counterexample :
    AudioFilter.readData 0 (fun b => b) (⟨[10, 20, 30, 40], 2⟩ : AudioFilter Int)
        []
      = ([0, 10, 20, 30, 40], ⟨[], 2⟩)
    ∧ ¬(4 * (AudioFilter.readData 0 (fun b => b)
          (⟨[10, 20, 30, 40], 2⟩ : AudioFilter Int) []).1.length
        < 0 + 4 * 2) := by
  have h : AudioFilter.readData 0 (fun b => b)
        (⟨[10, 20, 30, 40], 2⟩ : AudioFilter Int) []
      = ([0, 10, 20, 30, 40], ⟨[], 2⟩) := by
    simp [AudioFilter.readData, extractBlocks]
  refine ⟨h, ?_⟩
  rw [h]
  decide

/-- C5 as amended: extraction stops exactly when the residual buffer holds
fewer than `blockSamplesCount` samples; `maxLength` plays no part in the
loop (it only bounds how many bytes are pulled from the input device), so
the returned accumulation is the one-sample `np.empty(1)` artifact
followed by the transform outputs of *all* complete FIFO blocks — its
byte length may exceed `maxLength` — and the call returns it without
error, with the residual below one block. -/
theorem readData_drains_all_blocks {α : Type} (empty1 : α)
    (cv : List α → List α) (f : AudioFilter α) (data : List α)
    (hb : 0 < f.blockSamplesCount) :
    (AudioFilter.readData empty1 cv f data).1
      = empty1 ::
          ((fifoBlocks f.blockSamplesCount (f.audioInBuff ++ data)).map
            cv).flatten
    ∧ ((AudioFilter.readData empty1 cv f data).2).audioInBuff.length
        < f.blockSamplesCount := by
  have h1 := extractBlocks_fst cv f.blockSamplesCount
    (f.audioInBuff ++ data).length (f.audioInBuff ++ data) le_rfl [empty1]
  have h2 := extractBlocks_snd_length cv f.blockSamplesCount hb
    (f.audioInBuff ++ data).length (f.audioInBuff ++ data) le_rfl [empty1]
  constructor
  · simpa [AudioFilter.readData] using h1
  · have : ((AudioFilter.readData empty1 cv f data).2).audioInBuff.length
        = (f.audioInBuff ++ data).length % f.blockSamplesCount := by
      simpa [AudioFilter.readData] using h2
    exact this ▸ Nat.mod_lt _ hb

/-- Witness for `readData_drains_all_blocks`: block size 2, residual
`[1, 2, 3]`, data `[4]` — both blocks `[1, 2]` and `[3, 4]` are drained
in FIFO order behind the artifact sample. -/
theorem readData_drains_all_blocks_w :
    0 < (⟨[1, 2, 3], 2⟩ : AudioFilter Int).blockSamplesCount
    ∧ ((AudioFilter.readData 0 (fun b => b) (⟨[1, 2, 3], 2⟩ : AudioFilter Int)
          [4]).1
        = 0 :: ((fifoBlocks 2 (([1, 2, 3] : List Int) ++ [4])).map
            (fun b => b)).flatten
      ∧ ((AudioFilter.readData 0 (fun b => b) (⟨[1, 2, 3], 2⟩ : AudioFilter Int)
          [4]).2).audioInBuff.length < 2) :=
  ⟨by decide,
    readData_drains_all_blocks 0 (fun b => b) ⟨[1, 2, 3], 2⟩ [4] (by decide)⟩

/-- C6: the claim predicts `bytesAvailable` returns
`floor(queuedBytes / blockBytes) * blockBytes` where the queued input is
the residual samples (4 bytes each) plus the device's available bytes.
With block size 1 (block byte width 4), a residual of 4 samples
(16 queued bytes) and 0 device bytes, that is 16.  The code instead adds
`len(self.audioInBuff)` — a sample count, 4 — to the device's *byte*
count before rounding, and returns 4. -/
theorem bytesAvailable_unit_mix_eval :
    ((4 * (⟨[10, 20, 30, 40], 1⟩ : AudioFilter Int).audioInBuff.length + 0)
        / (1 * 4)) * (1 * 4) = 16
    ∧ AudioFilter.bytesAvailable (⟨[10, 20, 30, 40], 1⟩ : AudioFilter Int) 0 = 4
    ∧ (4 : Nat) ≠ 16 := by
  decide

/-- C2, counterexample: the claim predicts that when the transform fails
on a block — here `pipeline-not-initialized` on the very first block of
size 4, with no prior output — the substituted silent block has length 4
(`blockSize` zeros).  The code's exception handler returns
`np.zeros(1)`: a single zero sample, length 1 ≠ 4. -/
theorem change_voice_failure_length_counterexample :
    ((change_voice false
        (fun _ => .error VCException.pipelineNotInitialized)
        (fun _ => "traceback") [1, 2, 3, 4]).1).length = 1
    ∧ (1 : Nat) ≠ 4 := by
  refine ⟨?_, by decide⟩
  simp [change_voice]

/-- C2 as amended: on every block for which the pipeline raises one of
the caught exceptions, `change_voice` returns a single zero sample
(`np.zeros(1)`) — not a block of the last-seen output length nor of
`blockSize` zeros — with volume 0, timings `[0, 0, 0]`, and the failure
descriptor in its result tuple; the stream adapter's `readData` then
keeps only the sample component (`out_wav, _, _, _ = ...`), discarding
the descriptor instead of forwarding it. -/
theorem change_voice_failure_single_zero
    (onRequest : List ℝ → Except VCException (List ℝ × ℝ × List Int))
    (formatExc : VCException → String) (x : List ℝ) (e : VCException)
    (h : onRequest x = .error e) :
    change_voice false onRequest formatExc x
      = (List.replicate 1 0, 0, [0, 0, 0], some (e.descriptor, formatExc e)) := by
  simp [change_voice, h]

/-- Witness for `change_voice_failure_single_zero`: a transform that
raises `PipelineNotInitializedException` on every block, applied to the
block `[1, 2, 3, 4]`. -/
theorem change_voice_failure_single_zero_w :
    ((fun (_ : List ℝ) =>
        (.error VCException.pipelineNotInitialized :
          Except VCException (List ℝ × ℝ × List Int))) [1, 2, 3, 4]
      = .error VCException.pipelineNotInitialized)
    ∧ change_voice false
        (fun _ => .error VCException.pipelineNotInitialized)
        (fun e => e.descriptor) [1, 2, 3, 4]
      = (List.replicate 1 0, 0, [0, 0, 0],
          some (VCException.pipelineNotInitialized.descriptor,
            VCException.pipelineNotInitialized.descriptor)) :=
  ⟨rfl,
    change_voice_failure_single_zero
      (fun _ => .error VCException.pipelineNotInitialized)
      (fun e => e.descriptor) [1, 2, 3, 4]
      VCException.pipelineNotInitialized rfl⟩

/-- C10: with the pass-through setting enabled, `change_voice` returns
the input samples unchanged, the RMS of the input as the activity level,
timings `[0, 0, 0]`, and no failure descriptor — for every pipeline
`onRequest`, so the voice-conversion pipeline is never consulted. -/
theorem change_voice_passThrough_identity
    (onRequest : List ℝ → Except VCException (List ℝ × ℝ × List Int))
    (formatExc : VCException → String) (receivedData : List ℝ) :
    change_voice true onRequest formatExc receivedData
      = (receivedData, rms receivedData, [0, 0, 0], none) := by
  simp [change_voice]

/-- C3: the claim predicts the capture callback copies
`min(transformOutputLength, slotCapacity)` samples and records that
count, reading nothing past the end of the transform output.  With block
size 4 (slot capacity 8) and a failing transform — whose output is the
single sample `[0]`, as substituted by `change_voice` — the code instead
`memmove`s `n_samples = 4` floats from the 1-sample output array: the
recorded count is 4, not `min 1 8 = 1`, and the slot's contents depend
on the three floats past the end of the output array (two different
out-of-bounds contents yield two different slots), i.e. the copy reads
past the end of the transform output. -/
theorem on_capture_records_input_count_and_reads_past_output :
    (on_capture 4
        (change_voice false (fun _ => .error VCException.generic)
          (fun _ => "traceback"))
        (fun _ => 0) (LoopCtx.init 4) [1, 2, 3, 4] 4).map LoopCtx.buffer
      = some [0, 0, 0, 0, 0, 0, 0, 0]
    ∧ (on_capture 4
        (change_voice false (fun _ => .error VCException.generic)
          (fun _ => "traceback"))
        (fun _ => 1) (LoopCtx.init 4) [1, 2, 3, 4] 4).map LoopCtx.buffer
      = some [0, 1, 1, 1, 0, 0, 0, 0]
    ∧ (on_capture 4
        (change_voice false (fun _ => .error VCException.generic)
          (fun _ => "traceback"))
        (fun _ => 0) (LoopCtx.init 4) [1, 2, 3, 4] 4).map LoopCtx.n_samples
      = some 4
    ∧ ([0, 0, 0, 0, 0, 0, 0, 0] : List ℝ) ≠ [0, 1, 1, 1, 0, 0, 0, 0]
    ∧ (4 : Nat) ≠ min 1 (4 * 2) := by
  refine ⟨?_, ?_, ?_, ?_, by decide⟩
  · simp [on_capture, change_voice, memmoveRead, LoopCtx.init, List.range_succ]
  · simp [on_capture, change_voice, memmoveRead, LoopCtx.init, List.range_succ]
  · simp [on_capture]
  · intro h
    norm_num [List.cons.injEq] at h

/-- C4, counterexample: the claim predicts that with have-data set and a
recorded valid count of 2 below the native block size 4, the playback
callback writes the 2 real samples followed by 2 zeros.  The code's
have-data branch only `memmove`s `min(4, 2) = 2` floats and never
touches the rest of the output buffer: with previous output contents
`[9, 9, 9, 9]`, the block played is `[5, 6, 9, 9]`, not `[5, 6, 0, 0]`. -/
theorem on_playback_no_zero_pad_counterexample :
    (on_playback ⟨[5, 6, 7, 8, 9, 10, 11, 12], 8, 2, true⟩ [9, 9, 9, 9] 4).2
      = [5, 6, 9, 9]
    ∧ (on_playback ⟨[5, 6, 7, 8, 9, 10, 11, 12], 8, 2, true⟩ [9, 9, 9, 9] 4).2
      ≠ [5, 6, 0, 0] := by
  have h : (on_playback ⟨[5, 6, 7, 8, 9, 10, 11, 12], 8, 2, true⟩
        [9, 9, 9, 9] 4).2 = [5, 6, 9, 9] := by
    simp [on_playback]
  refine ⟨h, ?_⟩
  rw [h]
  intro hc
  norm_num [List.cons.injEq] at hc

/-- C4 as amended: whenever have-data is set, the playback callback
copies `min(n_samples, recordedValidCount)` samples from the slot into
the front of the output buffer, clears have-data, and leaves the
remaining output samples exactly as they were (no zero padding). -/
theorem on_playback_short_count_tail_unchanged (lc : LoopCtx)
    (samples : List ℝ) (n_samples : Nat) (h : lc.have_data = true) :
    on_playback lc samples n_samples
      = ({ lc with have_data := false },
          lc.buffer.take (min n_samples lc.n_samples)
            ++ samples.drop (min n_samples lc.n_samples)) := by
  simp [on_playback, h]

/-- Witness for `on_playback_short_count_tail_unchanged` at the concrete
state of the C4 counterexample. -/
theorem on_playback_short_count_tail_unchanged_w :
    (⟨[5, 6, 7, 8, 9, 10, 11, 12], 8, 2, true⟩ : LoopCtx).have_data = true
    ∧ on_playback ⟨[5, 6, 7, 8, 9, 10, 11, 12], 8, 2, true⟩ [9, 9, 9, 9] 4
      = (⟨[5, 6, 7, 8, 9, 10, 11, 12], 8, 2, false⟩,
          ([5, 6, 7, 8, 9, 10, 11, 12] : List ℝ).take (min 4 2)
            ++ ([9, 9, 9, 9] : List ℝ).drop (min 4 2)) :=
  ⟨rfl,
    on_playback_short_count_tail_unchanged
      ⟨[5, 6, 7, 8, 9, 10, 11, 12], 8, 2, true⟩ [9, 9, 9, 9] 4 rfl⟩

/-- C8: the freshly constructed loop context has have-data unset, and for
every context with have-data unset (in particular before any capture
cycle has completed), the playback callback zero-fills the entire
`n_samples`-sample output block and changes nothing else — the call
completes normally, no error path exists. -/
theorem on_playback_underrun_zeros (blockSamplesCount : Nat) (lc : LoopCtx)
    (samples : List ℝ) (n_samples : Nat) (hflag : lc.have_data = false)
    (hlen : samples.length = n_samples) :
    (LoopCtx.init blockSamplesCount).have_data = false
    ∧ (on_playback lc samples n_samples).2 = List.replicate n_samples 0
    ∧ (on_playback lc samples n_samples).1 = lc := by
  refine ⟨rfl, ?_, ?_⟩
  · simp [on_playback, hflag, ← hlen]
  · simp [on_playback, hflag]

/-- Witness for `on_playback_underrun_zeros`: the initial context for
block size 4 and a 4-sample playback request. -/
theorem on_playback_underrun_zeros_w :
    (LoopCtx.init 4).have_data = false
    ∧ ([5, 6, 7, 8] : List ℝ).length = 4
    ∧ ((LoopCtx.init 4).have_data = false
      ∧ (on_playback (LoopCtx.init 4) [5, 6, 7, 8] 4).2 = List.replicate 4 0
      ∧ (on_playback (LoopCtx.init 4) [5, 6, 7, 8] 4).1 = LoopCtx.init 4) :=
  ⟨rfl, rfl, on_playback_underrun_zeros 4 (LoopCtx.init 4) [5, 6, 7, 8] 4 rfl rfl⟩

/-- C9: `AudioPipeWire.exit` on a state still holding the loop handle
emits exactly the trace quit-signal, then thread-join, then
handle-release — so the join (which blocks until the background context
running `run`, owner of the slot's backing buffer, has fully exited)
strictly precedes the release — and `exit` on a state with no handle
(already torn down) emits nothing and changes nothing, so a second
`exit` is a no-op. -/
theorem exit_joins_before_release_and_idle_noop :
    AudioPipeWire.exit ⟨true⟩
      = (⟨false⟩,
          [BridgeEvent.quitSignal, BridgeEvent.joinThread,
            BridgeEvent.releaseLoop])
    ∧ AudioPipeWire.exit ⟨false⟩ = (⟨false⟩, [])
    ∧ (AudioPipeWire.exit (AudioPipeWire.exit ⟨true⟩).1).2 = []
    ∧ [BridgeEvent.quitSignal, BridgeEvent.joinThread,
        BridgeEvent.releaseLoop].indexOf BridgeEvent.joinThread
      < [BridgeEvent.quitSignal, BridgeEvent.joinThread,
          BridgeEvent.releaseLoop].indexOf BridgeEvent.releaseLoop := by
  refine ⟨rfl, rfl, rfl, by decide⟩

end Avoc
